import Mathlib

/-!
Shallow embedding of `src/concrete_texture_generator.py` (plus the dimension
check of `src/concrete_texture_app.py` and the parameter clamping of `main`).

Modelling conventions:
* a pixel buffer is a function `x ↦ y ↦ (r, g, b)` with natural-number
  channels (the cells of the numpy `uint8` array);
* Python floats are modelled by `ℚ`; `int(...)` is truncation toward zero,
  and storing a clipped float into a `uint8` cell floors it;
* Python strings are modelled as `List Char`;
* the external library primitives (the `random` and `np.random` pseudorandom
  streams, OpenSimplex noise, scipy's `gaussian_filter`, PIL's Gaussian blur
  and line rasterisation, and the trigonometric functions used by the crack
  walk) are collected in a `Prims` structure over which every definition is
  parameterised; the two module-level random streams are threaded explicitly
  as abstract stream positions, exactly where the Python code consumes them;
* PIL's `draw.ellipse([cx-r, cy-r, cx+r, cy+r], fill)` is modelled as filling
  the Euclidean disk of radius `r` around `(cx, cy)`.
-/

abbrev RGB := ℕ × ℕ × ℕ
abbrev Buf := ℕ → ℕ → RGB
abbrev PyState := ℕ
abbrev NpState := ℕ
abbrev Overlay := ℕ → ℕ → ℚ × ℚ × ℚ × ℚ

/-- Apply a function to each channel of a pixel. -/
def mapRGB (f : ℕ → ℕ) (p : RGB) : RGB := (f p.1, f p.2.1, f p.2.2)

/-- `clamp` (generator line 53): `max(min_val, min(max_val, value))` at its
default bounds 0 and 255 (all call sites use the defaults). -/
def clamp (value : ℚ) : ℚ := max 0 (min 255 value)

/-- Python `int(...)` on a float: truncation toward zero. -/
def intTrunc (q : ℚ) : ℤ := if 0 ≤ q then ⌊q⌋ else -⌊-q⌋

/-- Storing a float into a `uint8` numpy cell after clamping/clipping it to
[0, 255]: `astype(np.uint8)` truncates, and the clamped value is
nonnegative, so this is a floor. -/
def clampU8 (q : ℚ) : ℕ := ⌊clamp q⌋.toNat

/-- `np.clip(z, 0, 255).astype(np.uint8)` on integer noise sums. -/
def clipU8 (z : ℤ) : ℕ := (max 0 (min 255 z)).toNat

/-- Pixel membership in the filled disk that PIL rasterises for
`draw.ellipse([cx-r, cy-r, cx+r, cy+r], fill)`. -/
def inDisk (cx cy r : ℤ) (px py : ℕ) : Bool :=
  decide (((px : ℤ) - cx) ^ 2 + ((py : ℤ) - cy) ^ 2 ≤ r ^ 2)

/-- Disk membership for a rational radius (used by the spec-side reading of
claim C8, where the drawn radius is scaled by `pitting_size`). -/
def inDiskQ (cx cy : ℤ) (r : ℚ) (px py : ℕ) : Bool :=
  decide ((((px : ℤ) - cx : ℤ) : ℚ) ^ 2 + (((py : ℤ) - cy : ℤ) : ℚ) ^ 2 ≤ r ^ 2)

/-- `ndarray.max()` over a `width × height` scalar mask.  On a zero-size
array numpy's `.max()` raises a `ValueError`; that error path is not
modelled — this function totalises it to the default 0 — so statements
about the pipeline running to completion are restricted to positive
dimensions, where the arrays are nonempty and the two agree. -/
def maskMax (width height : ℕ) (m : ℕ → ℕ → ℚ) : ℚ :=
  (((List.range width).flatMap fun x => (List.range height).map fun y => m x y).max?).getD 0

/-- The characters `int(_, 16)` accepts as hexadecimal digits (signs and
whitespace, which no color code in the repository contains, are not
modelled). -/
def isHexDig (c : Char) : Bool :=
  c.isDigit || ('a' ≤ c && c ≤ 'f') || ('A' ≤ c && c ≤ 'F')

/-- Numeric value of a hexadecimal digit. -/
def hexVal (c : Char) : ℕ :=
  if c.isDigit then c.toNat - '0'.toNat
  else if 'a' ≤ c && c ≤ 'f' then c.toNat - 'a'.toNat + 10
  else c.toNat - 'A'.toNat + 10

/-- Python `int(s, 16)`: `none` models the `ValueError` raised on the empty
string or on a non-hex character. -/
def pyIntHex (s : List Char) : Option ℕ :=
  if s = [] then none
  else if s.all isHexDig then some (s.foldl (fun acc c => 16 * acc + hexVal c) 0)
  else none

/-- Python slice `s[i:j]`. -/
def pySlice (s : List Char) (i j : ℕ) : List Char := (s.drop i).take (j - i)

/-- `hex_to_rgb` (lines 42-45): `lstrip('#')`, then parse the slices
`[0:2]`, `[2:4]`, `[4:6]` with `int(_, 16)`.  There is no length or
validity check before the conversion; `none` models the `ValueError`
escaping from a failing slice parse. -/
def hex_to_rgb (s : List Char) : Option RGB :=
  let t := s.dropWhile fun c => c = '#'
  match pyIntHex (pySlice t 0 2), pyIntHex (pySlice t 2 4), pyIntHex (pySlice t 4 6) with
  | some r, some g, some b => some (r, g, b)
  | _, _, _ => none

/-- External-library primitives the generator calls into, as deterministic
functions of explicit stream positions.  `pyRandint lo hi` models
`random.randint(lo, hi)` (both ends inclusive); `npRand` models
`np.random.rand(height, width)` as a scalar matrix (indexed `x`, `y`);
`npRandintMat lo hi` models `np.random.randint(lo, hi, (height, width, 3))`
(high end exclusive, indexed `x`, `y`, channel); `noise2 seed x y` models
`OpenSimplex(seed=seed).noise2(x, y)`; `cosDeg`/`sinDeg` model
`np.cos(np.radians(·))`/`np.sin(np.radians(·))`; `linePix pts px py` models
pixel membership in the 1-px polyline PIL draws through `pts`. -/
structure Prims where
  pySeed : ℤ → PyState
  pyRandint : PyState → ℤ → ℤ → ℤ × PyState
  pyUniform : PyState → ℚ → ℚ → ℚ × PyState
  pyRandom : PyState → ℚ × PyState
  npSeed : ℤ → NpState
  npRand : NpState → ℕ → ℕ → (ℕ → ℕ → ℚ) × NpState
  npRandintMat : NpState → ℤ → ℤ → ℕ → ℕ → (ℕ → ℕ → ℕ → ℤ) × NpState
  noise2 : ℤ → ℚ → ℚ → ℚ
  gaussianFilter : ℚ → ℕ → ℕ → (ℕ → ℕ → ℚ) → (ℕ → ℕ → ℚ)
  blurRGBA : ℚ → Overlay → Overlay
  cosDeg : ℚ → ℚ
  sinDeg : ℚ → ℚ
  linePix : List (ℤ × ℤ) → ℕ → ℕ → Bool

/-- `apply_base_color` (lines 58-62): solid fill with the base color. -/
def apply_base_color (width height : ℕ) (color_rgb : RGB) : Buf :=
  fun _ _ => color_rgb

/-- `apply_simplex_noise` (lines 65-94): when no seed is supplied, draw one
from the `random` stream (`random.randint(0, 10000)`); octave 1 adds
`noise2(x*scale, y*scale) * intensity` to every channel (clamped into the
`uint8` cell), octave 2 then adds `noise2(x*scale*3, y*scale*3) *
(intensity*0.5)` on top, again clamped, using a second generator seeded
`seed + 1`. -/
def apply_simplex_noise (P : Prims) (width height : ℕ) (img_array : Buf)
    (scale intensity : ℚ) (seed : Option ℤ) (pys : PyState) : Buf × PyState :=
  let drawn := match seed with
    | none => P.pyRandint pys 0 10000
    | some s => (s, pys)
  let sd := drawn.1
  let pys1 := drawn.2
  let oct1 : Buf := fun x y =>
    mapRGB (fun c => clampU8 ((c : ℚ) +
      P.noise2 sd ((x : ℚ) * scale) ((y : ℚ) * scale) * intensity)) (img_array x y)
  let oct2 : Buf := fun x y =>
    mapRGB (fun c => clampU8 ((c : ℚ) +
      P.noise2 (sd + 1) ((x : ℚ) * scale * 3) ((y : ℚ) * scale * 3) * (intensity * (1/2))))
      (oct1 x y)
  (oct2, pys1)

/-- `apply_fine_grain` (lines 97-111): integer noise drawn uniformly in
`[-intensity, intensity]` per pixel and channel, added and clipped. -/
def apply_fine_grain (P : Prims) (width height : ℕ) (img_array : Buf)
    (intensity : ℤ) (seed : Option ℤ) (nps : NpState) : Buf × NpState :=
  let nps1 := match seed with | some s => P.npSeed s | none => nps
  let draw := P.npRandintMat nps1 (-intensity) (intensity + 1) width height
  ((fun x y =>
    ( clipU8 (((img_array x y).1 : ℤ) + draw.1 x y 0),
      clipU8 (((img_array x y).2.1 : ℤ) + draw.1 x y 1),
      clipU8 (((img_array x y).2.2 : ℤ) + draw.1 x y 2))), draw.2)

/-- `apply_heavy_stipple` (lines 147-164): identical mechanism to the fine
grain layer, at a higher intensity. -/
def apply_heavy_stipple (P : Prims) (width height : ℕ) (img_array : Buf)
    (intensity : ℤ) (seed : Option ℤ) (nps : NpState) : Buf × NpState :=
  let nps1 := match seed with | some s => P.npSeed s | none => nps
  let draw := P.npRandintMat nps1 (-intensity) (intensity + 1) width height
  ((fun x y =>
    ( clipU8 (((img_array x y).1 : ℤ) + draw.1 x y 0),
      clipU8 (((img_array x y).2.1 : ℤ) + draw.1 x y 1),
      clipU8 (((img_array x y).2.2 : ℤ) + draw.1 x y 2))), draw.2)

/-- Binarisation of the splatter noise (line 129): 1 where the noise value
exceeds the threshold, else 0. -/
def threshold_mask (noise : ℕ → ℕ → ℚ) (threshold : ℚ) : ℕ → ℕ → ℚ :=
  fun x y => if threshold < noise x y then 1 else 0

/-- `apply_knockdown_splatter` (lines 114-144): one uniform scalar per pixel,
binarised at threshold 0.60, Gaussian-blurred with `sigma = blur_radius`,
normalised by its maximum when that maximum is positive, then
`(mask - 0.5) * intensity * 50` is added to every channel and clipped. -/
def apply_knockdown_splatter (P : Prims) (width height : ℕ) (img_array : Buf)
    (intensity blur_radius : ℚ) (seed : Option ℤ) (nps : NpState) : Buf × NpState :=
  let nps1 := match seed with | some s => P.npSeed s | none => nps
  let draw := P.npRand nps1 width height
  let mask1 := P.gaussianFilter blur_radius width height (threshold_mask draw.1 (6/10))
  let m := maskMax width height mask1
  let mask2 := if 0 < m then (fun x y => mask1 x y / m) else mask1
  ((fun x y =>
    mapRGB (fun c => clampU8 ((c : ℚ) + (mask2 x y - 1/2) * intensity * 50))
      (img_array x y)), draw.2)

/-- The maximum of the blurred, thresholded splatter mask as the layer
computes it when invoked without a layer seed (as the pipeline does). -/
def knockdown_mask_max (P : Prims) (width height : ℕ) (blur_radius : ℚ)
    (nps : NpState) : ℚ :=
  maskMax width height
    (P.gaussianFilter blur_radius width height
      (threshold_mask (P.npRand nps width height).1 (6/10)))

/-- One pitting draw (lines 305-316): a uniformly random center, a radius
drawn by `random.randint(1, 4)`, and the whole disk filled with a single
color, `int(0.4 * c)` per channel of the **center** pixel as read from the
numpy array snapshotted at layer entry (`img_array`, while the ellipses
accumulate on the separate PIL copy `img`). -/
def pitting_draw (P : Prims) (width height : ℕ) (entry : Buf)
    (acc : Buf × PyState) : Buf × PyState :=
  let r1 := P.pyRandint acc.2 0 ((width : ℤ) - 1)
  let r2 := P.pyRandint r1.2 0 ((height : ℤ) - 1)
  let r3 := P.pyRandint r2.2 1 4
  let pinhole_color :=
    mapRGB (fun c => (intTrunc ((c : ℚ) * (4/10))).toNat) (entry r1.1.toNat r2.1.toNat)
  ((fun px py => if inDisk r1.1 r2.1 r3.1 px py then pinhole_color else acc.1 px py), r3.2)

/-- `apply_pitting_pinholes` (lines 290-318): `int((width*height)/600 *
density)` draws. -/
def apply_pitting_pinholes (P : Prims) (width height : ℕ) (img_array : Buf)
    (density : ℚ) (pys : PyState) : Buf × PyState :=
  let base_count := intTrunc ((width : ℚ) * (height : ℚ) / 600 * density)
  (List.range base_count.toNat).foldl
    (fun acc _ => pitting_draw P width height img_array acc) (img_array, pys)

/-- One legacy pore draw (lines 275-285): random center, size drawn from
`size_range`, the disk of radius `size // 2` filled with `int(0.4 * c)` per
channel of the center pixel as of layer entry. -/
def pores_draw (P : Prims) (width height : ℕ) (entry : Buf) (size_range : ℤ × ℤ)
    (acc : Buf × PyState) : Buf × PyState :=
  let r1 := P.pyRandint acc.2 0 ((width : ℤ) - 1)
  let r2 := P.pyRandint r1.2 0 ((height : ℤ) - 1)
  let r3 := P.pyRandint r2.2 size_range.1 size_range.2
  let pore_color :=
    mapRGB (fun c => (intTrunc ((c : ℚ) * (4/10))).toNat) (entry r1.1.toNat r2.1.toNat)
  ((fun px py => if inDisk r1.1 r2.1 (r3.1.fdiv 2) px py then pore_color else acc.1 px py), r3.2)

/-- `apply_pores` (lines 266-287). -/
def apply_pores (P : Prims) (width height : ℕ) (img_array : Buf)
    (count : ℤ) (size_range : ℤ × ℤ) (pys : PyState) : Buf × PyState :=
  (List.range count.toNat).foldl
    (fun acc _ => pores_draw P width height img_array size_range acc) (img_array, pys)

/-- One aggregate draw (lines 336-355): random center, size in [2, 8], a
coin flip choosing a darkening factor in [0.5, 0.75] or a lightening factor
in [1.25, 1.5], the disk of radius `size // 2` filled with
`int(clamp(c * factor))` per channel of the center pixel at layer entry. -/
def aggregate_draw (P : Prims) (width height : ℕ) (entry : Buf)
    (acc : Buf × PyState) : Buf × PyState :=
  let r1 := P.pyRandint acc.2 0 ((width : ℤ) - 1)
  let r2 := P.pyRandint r1.2 0 ((height : ℤ) - 1)
  let r3 := P.pyRandint r2.2 2 8
  let coin := P.pyRandom r3.2
  let fdraw := if 1/2 < coin.1 then P.pyUniform coin.2 (1/2) (3/4)
    else P.pyUniform coin.2 (5/4) (3/2)
  let aggregate_color :=
    mapRGB (fun c => (intTrunc (clamp ((c : ℚ) * fdraw.1))).toNat) (entry r1.1.toNat r2.1.toNat)
  ((fun px py => if inDisk r1.1 r2.1 (r3.1.fdiv 2) px py then aggregate_color else acc.1 px py),
   fdraw.2)

/-- `apply_rough_aggregate` (lines 321-357): `int((width*height)/800 *
density)` draws. -/
def apply_rough_aggregate (P : Prims) (width height : ℕ) (img_array : Buf)
    (density : ℚ) (pys : PyState) : Buf × PyState :=
  let base_count := intTrunc ((width : ℚ) * (height : ℚ) / 800 * density)
  (List.range base_count.toNat).foldl
    (fun acc _ => aggregate_draw P width height img_array acc) (img_array, pys)

/-- `apply_color_variation` (lines 360-407): draw a seed when none is given,
reseed `np.random` with it, build a hard-edged stain mask (coherent noise
thresholded at 0.2, OR-ed — via `np.maximum` — with `patch_count` random
circles of radius in [20, 80]), then subtract `intensity` on every channel
where the mask is 1 and clip. -/
def apply_color_variation (P : Prims) (width height : ℕ) (img_array : Buf)
    (patch_count : ℕ) (scale intensity : ℚ) (seed : Option ℤ)
    (pys : PyState) (nps : NpState) : Buf × PyState × NpState :=
  let drawn := match seed with
    | none => P.pyRandint pys 0 10000
    | some s => (s, pys)
  let sd := drawn.1
  let nps1 := P.npSeed sd
  let mask0 : ℕ → ℕ → ℚ := fun x y =>
    if (1/5 : ℚ) < P.noise2 sd ((x : ℚ) * scale) ((y : ℚ) * scale) then 1 else 0
  let patches := (List.range patch_count).foldl
    (fun (acc : (ℕ → ℕ → ℚ) × PyState) _ =>
      let r1 := P.pyRandint acc.2 0 ((width : ℤ) - 1)
      let r2 := P.pyRandint r1.2 0 ((height : ℤ) - 1)
      let r3 := P.pyRandint r2.2 20 80
      ((fun x y => max (acc.1 x y) (if inDisk r1.1 r2.1 r3.1 x y then 1 else 0)), r3.2))
    (mask0, drawn.2)
  ((fun x y =>
    mapRGB (fun c => clampU8 ((c : ℚ) + patches.1 x y * (-intensity))) (img_array x y)),
   patches.2, nps1)

/-- Color of a crack polyline (lines 259-260 and 253-254): `int(c * 0.6)`
per channel of the walk's first point, read from the layer-entry buffer. -/
def crack_color_of (entry : Buf) (pt : ℤ × ℤ) : RGB :=
  mapRGB (fun c => (intTrunc ((c : ℚ) * (6/10))).toNat) (entry pt.1.toNat pt.2.toNat)

/-- Overwrite the pixels of a 1-px polyline with a fixed color. -/
def draw_polyline (P : Prims) (pts : List (ℤ × ℤ)) (color : RGB) (buf : Buf) : Buf :=
  fun px py => if P.linePix pts px py then color else buf px py

/-- One step of a crack branch sub-walk (lines 244-250): perturb the heading
by ±60°, advance x and y by independently drawn step lengths in [0.5, 1.5],
and append the integer point when it lies in bounds.  State:
`(bx, by, angle, points, stream)`. -/
def crack_branch_step (P : Prims) (width height : ℕ)
    (st : ℚ × ℚ × ℚ × List (ℤ × ℤ) × PyState) : ℚ × ℚ × ℚ × List (ℤ × ℤ) × PyState :=
  let d := P.pyUniform st.2.2.2.2 (-60) 60
  let bangle := st.2.2.1 + d.1
  let s1 := P.pyUniform d.2 (1/2) (3/2)
  let bx := st.1 + P.cosDeg bangle * s1.1
  let s2 := P.pyUniform s1.2 (1/2) (3/2)
  let byv := st.2.1 + P.sinDeg bangle * s2.1
  let pts := if 0 ≤ bx ∧ bx < (width : ℚ) ∧ 0 ≤ byv ∧ byv < (height : ℚ)
    then st.2.2.2.1 ++ [(intTrunc bx, intTrunc byv)] else st.2.2.2.1
  (bx, byv, bangle, pts, s2.2)

/-- One step of a crack walk (lines 222-255): perturb the heading by ±80°,
advance by one drawn step length, append the integer point when in bounds;
after step 5, with probability 0.1, run a branch sub-walk of 3-10 steps
from the (bounds-clamped) current position and draw it immediately when it
collected more than one point.  State: `(x, y, angle, points, buf, stream)`. -/
def crack_walk_step (P : Prims) (width height : ℕ) (entry : Buf)
    (st : ℚ × ℚ × ℚ × List (ℤ × ℤ) × Buf × PyState) (i : ℕ) :
    ℚ × ℚ × ℚ × List (ℤ × ℤ) × Buf × PyState :=
  let d := P.pyUniform st.2.2.2.2.2 (-80) 80
  let angle := st.2.2.1 + d.1
  let sdraw := P.pyUniform d.2 (1/2) 2
  let x := st.1 + P.cosDeg angle * sdraw.1
  let y := st.2.1 + P.sinDeg angle * sdraw.1
  let pts := if 0 ≤ x ∧ x < (width : ℚ) ∧ 0 ≤ y ∧ y < (height : ℚ)
    then st.2.2.2.1 ++ [(intTrunc x, intTrunc y)] else st.2.2.2.1
  if 5 < i then
    let coin := P.pyRandom sdraw.2
    if coin.1 < 1/10 then
      let blen := P.pyRandint coin.2 3 10
      let bd := P.pyUniform blen.2 (-90) 90
      let branch_angle := angle + bd.1
      let bx := max 0 (min ((width : ℚ) - 1) x)
      let byv := max 0 (min ((height : ℚ) - 1) y)
      let bres := (List.range blen.1.toNat).foldl
        (fun st2 _ => crack_branch_step P width height st2)
        (bx, byv, branch_angle, [(intTrunc bx, intTrunc byv)], bd.2)
      let bpts := bres.2.2.2.1
      let buf1 := if 1 < bpts.length
        then draw_polyline P bpts (crack_color_of entry (bpts.headD (0, 0))) st.2.2.2.2.1
        else st.2.2.2.2.1
      (x, y, angle, pts, buf1, bres.2.2.2.2)
    else (x, y, angle, pts, st.2.2.2.2.1, coin.2)
  else (x, y, angle, pts, st.2.2.2.2.1, sdraw.2)

/-- One crack walk (lines 211-261): random integer start point, length in
[15, 60], initial heading uniform in [0, 360); walk with possible branches,
then draw the collected polyline in `0.6 ×` the start pixel's entry color
when it has more than one point. -/
def crack_walk (P : Prims) (width height : ℕ) (entry : Buf)
    (acc : Buf × PyState) : Buf × PyState :=
  let r1 := P.pyRandint acc.2 0 ((width : ℤ) - 1)
  let r2 := P.pyRandint r1.2 0 ((height : ℤ) - 1)
  let r3 := P.pyRandint r2.2 15 60
  let a0 := P.pyUniform r3.2 0 360
  let wres := (List.range r3.1.toNat).foldl
    (crack_walk_step P width height entry)
    ((r1.1 : ℚ), (r2.1 : ℚ), a0.1, [(r1.1, r2.1)], acc.1, a0.2)
  let pts := wres.2.2.2.1
  let buf1 := if 1 < pts.length
    then draw_polyline P pts (crack_color_of entry (pts.headD (0, 0))) wres.2.2.2.2.1
    else wres.2.2.2.2.1
  (buf1, wres.2.2.2.2.2)

/-- `apply_cracks` (lines 199-263): `int(20 * density)` crack walks, each
reading its color from the layer-entry buffer while the lines accumulate on
the PIL copy. -/
def apply_cracks (P : Prims) (width height : ℕ) (img_array : Buf)
    (density : ℚ) (pys : PyState) : Buf × PyState :=
  let count := intTrunc (20 * density)
  (List.range count.toNat).foldl
    (fun acc _ => crack_walk P width height img_array acc) (img_array, pys)

/-- PIL `Image.alpha_composite` src-over blending for one channel, rounded
and stored into the byte range PIL buffers live in. -/
def srcOver (dst : ℕ) (src a : ℚ) : ℕ :=
  clampU8 ((src * a + (dst : ℚ) * (255 - a)) / 255 + 1/2)

/-- `apply_dust_haze` (lines 410-439): scatter `patch_count` white ellipses
(center drawn in [-50, width] × [-50, height], radius in [50, 150], alpha in
[10, 30]) on a transparent overlay, blur the overlay with a radius-20
Gaussian, and composite it over the buffer.  The `intensity` parameter is
accepted but never used by the body. -/
def apply_dust_haze (P : Prims) (width height : ℕ) (img_array : Buf)
    (patch_count : ℕ) (intensity : ℚ) (pys : PyState) : Buf × PyState :=
  let patches := (List.range patch_count).foldl
    (fun (acc : Overlay × PyState) _ =>
      let r1 := P.pyRandint acc.2 (-50) (width : ℤ)
      let r2 := P.pyRandint r1.2 (-50) (height : ℤ)
      let r3 := P.pyRandint r2.2 50 150
      let r4 := P.pyRandint r3.2 10 30
      ((fun px py => if inDisk r1.1 r2.1 r3.1 px py
        then (255, 255, 255, (r4.1 : ℚ)) else acc.1 px py), r4.2))
    ((fun _ _ => (255, 255, 255, 0)), pys)
  let overlay := P.blurRGBA 20 patches.1
  ((fun x y =>
    ( srcOver (img_array x y).1 (overlay x y).1 (overlay x y).2.2.2,
      srcOver (img_array x y).2.1 (overlay x y).2.1 (overlay x y).2.2.2,
      srcOver (img_array x y).2.2 (overlay x y).2.2.1 (overlay x y).2.2.2)), patches.2)

/-- The base color argument of `generate_concrete_texture`: a hex string or
an RGB tuple. -/
inductive BaseColor where
  | hexStr (s : List Char)
  | rgb (c : RGB)

/-- `generate_concrete_texture` (lines 442-542): convert a string base color
first (`none` models the `ValueError` escaping from `hex_to_rgb`), seed both
module-level streams when a seed is given, then run the eleven layers in
their fixed order.  No dimension or style-parameter validation happens
here.  The library error paths that raise `ValueError` out of numpy or
`random` — the zero-size `.max()` when width or height is 0, and `randint`
called with low ≥ high for parameter values such as roughness ≤ -1/35
(making `int(35*roughness)` negative at line 158) or a negative
`pitting_size` with a positive pore count — are **not** modelled: the
`Prims` primitives are total, so theorems asserting that generation
returns a buffer are stated only on inputs where the Python code does not
raise (positive dimensions, concrete or default parameter values). -/
def generate_concrete_texture (P : Prims) (base_color : BaseColor)
    (width height : ℕ) (roughness pitting cracks : ℚ) (seed : Option ℤ)
    (knockdown_intensity knockdown_scale pitting_size aggregate_density
     staining_intensity noise_scale : ℚ) (pys : PyState) (nps : NpState) :
    Option Buf :=
  match (match base_color with
         | .hexStr s => hex_to_rgb s
         | .rgb c => some c) with
  | none => none
  | some rgbv =>
    let seeded := match seed with
      | some s => (P.pySeed s, P.npSeed s)
      | none => (pys, nps)
    let img0 := apply_base_color width height rgbv
    let noise_scale_val := (1/100) * noise_scale
    let st1 := apply_simplex_noise P width height img0 noise_scale_val 12 none seeded.1
    let st2 := apply_knockdown_splatter P width height st1.1 knockdown_intensity
      knockdown_scale none seeded.2
    let stipple_intensity := intTrunc (35 * roughness)
    let st3 := apply_heavy_stipple P width height st2.1 stipple_intensity none st2.2
    let fine_intensity := intTrunc (25 * roughness)
    let st4 := apply_fine_grain P width height st3.1 fine_intensity none st3.2
    let st5 := apply_pitting_pinholes P width height st4.1 pitting st1.2
    let st6 := apply_rough_aggregate P width height st5.1 aggregate_density st5.2
    let stain_intensity := intTrunc (15 * staining_intensity)
    let st7 := apply_color_variation P width height st6.1 8 (8/1000)
      (stain_intensity : ℚ) none st6.2 st4.2
    let st8 := apply_cracks P width height st7.1 cracks st7.2.1
    let pore_count := intTrunc (600 * pitting)
    let pore_size := (intTrunc (1 * pitting_size), intTrunc (3 * pitting_size))
    let st9 := apply_pores P width height st8.1 pore_count pore_size st8.2
    let st10 := apply_dust_haze P width height st9.1 12 15 st9.2
    some st10.1

/-- Claim C7's reading of the tonal-noise layer: the two weighted octaves
are summed and the result clamped **once**. -/
def simplex_noise_single_clamp (P : Prims) (width height : ℕ) (img_array : Buf)
    (scale intensity : ℚ) (seed : Option ℤ) (pys : PyState) : Buf × PyState :=
  let drawn := match seed with
    | none => P.pyRandint pys 0 10000
    | some s => (s, pys)
  let sd := drawn.1
  ((fun x y =>
    mapRGB (fun c => clampU8 ((c : ℚ)
      + P.noise2 sd ((x : ℚ) * scale) ((y : ℚ) * scale) * intensity
      + P.noise2 (sd + 1) ((x : ℚ) * scale * 3) ((y : ℚ) * scale * 3) * (intensity * (1/2))))
      (img_array x y)), drawn.2)

/-- The five knockdown-splatter steps exactly as claim C6 words them, with
the threshold and the visibility constant left explicit and the
normalisation by the mask maximum performed unconditionally. -/
def knockdown_steps (P : Prims) (width height : ℕ) (img_array : Buf)
    (intensity blur_radius threshold visK : ℚ) (nps : NpState) : Buf × NpState :=
  let draw := P.npRand nps width height
  let mask1 := P.gaussianFilter blur_radius width height (threshold_mask draw.1 threshold)
  let mask2 := fun x y => mask1 x y / maskMax width height mask1
  ((fun x y =>
    mapRGB (fun c => clampU8 ((c : ℚ) + (mask2 x y - 1/2) * intensity * visK))
      (img_array x y)), draw.2)

/-- Claim C8's reading of the pitting layer: the drawn radius is scaled by
`pitting_size`, and **each** pixel of the disk is darkened to 0.4 × its own
pre-layer color. -/
def pitting_claim_steps (P : Prims) (width height : ℕ) (img_array : Buf)
    (density pitting_size : ℚ) (pys : PyState) : Buf × PyState :=
  let base_count := intTrunc ((width : ℚ) * (height : ℚ) / 600 * density)
  (List.range base_count.toNat).foldl
    (fun (acc : Buf × PyState) _ =>
      let r1 := P.pyRandint acc.2 0 ((width : ℤ) - 1)
      let r2 := P.pyRandint r1.2 0 ((height : ℤ) - 1)
      let r3 := P.pyRandint r2.2 1 4
      ((fun px py => if inDiskQ r1.1 r2.1 ((r3.1 : ℚ) * pitting_size) px py
        then mapRGB (fun c => (intTrunc ((c : ℚ) * (4/10))).toNat) (img_array px py)
        else acc.1 px py), r3.2))
    (img_array, pys)

/-- Claim C9's reading of the legacy-pores layer: each affected pixel is
darkened by a factor of **0.5** × its current color. -/
def pores_claim_steps (P : Prims) (width height : ℕ) (img_array : Buf)
    (count : ℤ) (size_range : ℤ × ℤ) (pys : PyState) : Buf × PyState :=
  (List.range count.toNat).foldl
    (fun (acc : Buf × PyState) _ =>
      let r1 := P.pyRandint acc.2 0 ((width : ℤ) - 1)
      let r2 := P.pyRandint r1.2 0 ((height : ℤ) - 1)
      let r3 := P.pyRandint r2.2 size_range.1 size_range.2
      ((fun px py => if inDisk r1.1 r2.1 (r3.1.fdiv 2) px py
        then mapRGB (fun c => (intTrunc ((c : ℚ) * (1/2))).toNat) (img_array px py)
        else acc.1 px py), r3.2))
    (img_array, pys)

/-- Dimension validation in `ConcreteTextureApp.export_texture.do_export`
(src/concrete_texture_app.py lines 517-531): width and height outside
[64, 8192] are rejected with an error dialog before generation starts. -/
def export_dims_ok (width height : ℤ) : Bool :=
  !(decide (width < 64) || decide (height < 64) ||
    decide (width > 8192) || decide (height > 8192))

/-- The export flow of `ConcreteTextureApp.export_texture`: the requested
dimensions reach `_export_with_dimensions` (and from there the generator)
only when the validation passes. -/
def do_export (width height : ℤ) : Option (ℤ × ℤ) :=
  if export_dims_ok width height then some (width, height) else none

/-- CLI parameter validation in `main` (generator lines 604-619): an
out-of-range value is clamped to `[lo, hi]` after a printed warning;
in-range values pass through. -/
def main_clamp (lo hi v : ℚ) : ℚ :=
  if ¬(lo ≤ v ∧ v ≤ hi) then max lo (min hi v) else v

/-- A concrete interpretation of the external primitives, used to evaluate
the embedding on closed inputs: every scalar stream draw returns the low
end of its range and advances the position, the integer-matrix draw returns
its top value `hi - 1` everywhere, coherent noise is identically 0, the
filters are the identity, and no pixel lies on any polyline. -/
def triv : Prims where
  pySeed := fun _ => 0
  pyRandint := fun s lo _ => (lo, s + 1)
  pyUniform := fun s lo _ => (lo, s + 1)
  pyRandom := fun s => (0, s + 1)
  npSeed := fun _ => 0
  npRand := fun s _ _ => (fun _ _ => 0, s + 1)
  npRandintMat := fun s _ hi _ _ => (fun _ _ _ => hi - 1, s + 1)
  noise2 := fun _ _ _ => 0
  gaussianFilter := fun _ _ _ m => m
  blurRGBA := fun _ o => o
  cosDeg := fun _ => 0
  sinDeg := fun _ => 0
  linePix := fun _ _ _ => false

/-- `triv` with coherent noise returning 1 for the generator seeded 0 and
-1/2 for every other seed (octave 2 uses seed + 1). -/
def trivC7 : Prims :=
  { triv with noise2 := fun sd _ _ => if sd = 0 then 1 else -(1/2) }

/-- `triv` with the uniform scalar matrix identically 1, so the whole
splatter mask survives the threshold. -/
def trivKD : Prims :=
  { triv with npRand := fun s _ _ => (fun _ _ => 1, s + 1) }

/-- A uniform grey test buffer. -/
def cbuf100 : Buf := fun _ _ => (100, 100, 100)

/-- A uniform light test buffer near the top of the channel range. -/
def cbuf250 : Buf := fun _ _ => (250, 250, 250)

/-- A test buffer whose origin pixel differs from every other pixel. -/
def cbufC8 : Buf := fun x y => if x = 0 ∧ y = 0 then (100, 100, 100) else (200, 200, 200)

/-- All three channels of a pixel are at most 255 (the lower bound 0 holds
by the `ℕ` channel type, mirroring the `uint8` cells). -/
def chansLE (p : RGB) : Prop := p.1 ≤ 255 ∧ p.2.1 ≤ 255 ∧ p.2.2 ≤ 255

/-- Every pixel of a buffer is within channel bounds. -/
def bufLE (b : Buf) : Prop := ∀ x y, chansLE (b x y)

/-- Channel bounds for every buffer a generation call can return. -/
def optBufLE (o : Option Buf) : Prop := ∀ b, o = some b → bufLE b

theorem intTrunc_le {q : ℚ} (h : q ≤ 255) : intTrunc q ≤ 255 := by
  unfold intTrunc
  split
  · calc ⌊q⌋ ≤ ⌊(255 : ℚ)⌋ := Int.floor_le_floor h
      _ = 255 := by norm_num
  · have h2 : (0 : ℤ) ≤ ⌊-q⌋ := by
      apply Int.le_floor.2
      push_cast
      linarith [not_le.1 (by assumption : ¬(0 : ℚ) ≤ q)]
    omega

theorem intTrunc_toNat_le {q : ℚ} (h : q ≤ 255) : (intTrunc q).toNat ≤ 255 := by
  have := intTrunc_le h
  omega

theorem clamp_le (q : ℚ) : clamp q ≤ 255 :=
  max_le (by norm_num) (min_le_left _ _)

theorem clampU8_le (q : ℚ) : clampU8 q ≤ 255 := by
  have h : ⌊clamp q⌋ ≤ 255 := by
    calc ⌊clamp q⌋ ≤ ⌊(255 : ℚ)⌋ := Int.floor_le_floor (clamp_le q)
      _ = 255 := by norm_num
  unfold clampU8
  omega

theorem clipU8_le (z : ℤ) : clipU8 z ≤ 255 := by
  have h : max 0 (min 255 z) ≤ 255 := max_le (by norm_num) (min_le_left _ _)
  unfold clipU8
  omega

theorem mapRGB_chansLE_of {f : ℕ → ℕ} (hf : ∀ n, f n ≤ 255) (p : RGB) :
    chansLE (mapRGB f p) := ⟨hf _, hf _, hf _⟩

theorem mapRGB_chansLE {f : ℕ → ℕ} {p : RGB} (hp : chansLE p)
    (hf : ∀ n, n ≤ 255 → f n ≤ 255) : chansLE (mapRGB f p) :=
  ⟨hf _ hp.1, hf _ hp.2.1, hf _ hp.2.2⟩

theorem mul_frac_le {n : ℕ} (hn : n ≤ 255) {f : ℚ} (h0 : 0 ≤ f) (h1 : f ≤ 1) :
    (n : ℚ) * f ≤ 255 := by
  have hc : (n : ℚ) ≤ 255 := by exact_mod_cast hn
  calc (n : ℚ) * f ≤ (n : ℚ) * 1 := by
        apply mul_le_mul_of_nonneg_left h1 (by positivity)
    _ = (n : ℚ) := mul_one _
    _ ≤ 255 := hc

theorem darken_channel_le {n : ℕ} (hn : n ≤ 255) {f : ℚ} (h0 : 0 ≤ f) (h1 : f ≤ 1) :
    (intTrunc ((n : ℚ) * f)).toNat ≤ 255 :=
  intTrunc_toNat_le (mul_frac_le hn h0 h1)

theorem foldl_preserve {σ : Type} (p : σ → Prop) (f : σ → ℕ → σ)
    (hf : ∀ s i, p s → p (f s i)) :
    ∀ (l : List ℕ) (s : σ), p s → p (l.foldl f s) := by
  intro l
  induction l with
  | nil => intro s hs; exact hs
  | cons a t ih => intro s hs; exact ih _ (hf s a hs)

theorem apply_base_color_bufLE {c : RGB} (hc : chansLE c) (w h : ℕ) :
    bufLE (apply_base_color w h c) := fun _ _ => hc

theorem apply_simplex_noise_bufLE (P : Prims) (w h : ℕ) (img : Buf)
    (sc i : ℚ) (sd : Option ℤ) (pys : PyState) :
    bufLE (apply_simplex_noise P w h img sc i sd pys).1 := fun _ _ =>
  mapRGB_chansLE_of (fun _ => clampU8_le _) _

theorem apply_knockdown_splatter_bufLE (P : Prims) (w h : ℕ) (img : Buf)
    (i b : ℚ) (sd : Option ℤ) (nps : NpState) :
    bufLE (apply_knockdown_splatter P w h img i b sd nps).1 := fun _ _ =>
  ⟨clampU8_le _, clampU8_le _, clampU8_le _⟩

theorem apply_heavy_stipple_bufLE (P : Prims) (w h : ℕ) (img : Buf)
    (i : ℤ) (sd : Option ℤ) (nps : NpState) :
    bufLE (apply_heavy_stipple P w h img i sd nps).1 := fun _ _ =>
  ⟨clipU8_le _, clipU8_le _, clipU8_le _⟩

theorem apply_fine_grain_bufLE (P : Prims) (w h : ℕ) (img : Buf)
    (i : ℤ) (sd : Option ℤ) (nps : NpState) :
    bufLE (apply_fine_grain P w h img i sd nps).1 := fun _ _ =>
  ⟨clipU8_le _, clipU8_le _, clipU8_le _⟩

theorem apply_color_variation_bufLE (P : Prims) (w h : ℕ) (img : Buf)
    (pc : ℕ) (sc i : ℚ) (sd : Option ℤ) (pys : PyState) (nps : NpState) :
    bufLE (apply_color_variation P w h img pc sc i sd pys nps).1 := fun _ _ =>
  mapRGB_chansLE_of (fun _ => clampU8_le _) _

theorem apply_dust_haze_bufLE (P : Prims) (w h : ℕ) (img : Buf)
    (pc : ℕ) (i : ℚ) (pys : PyState) :
    bufLE (apply_dust_haze P w h img pc i pys).1 := fun _ _ =>
  ⟨clampU8_le _, clampU8_le _, clampU8_le _⟩

theorem pitting_draw_bufLE (P : Prims) (w h : ℕ) {entry : Buf} (he : bufLE entry)
    {acc : Buf × PyState} (ha : bufLE acc.1) : bufLE (pitting_draw P w h entry acc).1 := by
  intro x y
  unfold pitting_draw
  dsimp only
  split
  · exact mapRGB_chansLE (he _ _) fun n hn => darken_channel_le hn (by norm_num) (by norm_num)
  · exact ha x y

theorem apply_pitting_pinholes_bufLE (P : Prims) (w h : ℕ) {img : Buf}
    (hi : bufLE img) (d : ℚ) (pys : PyState) :
    bufLE (apply_pitting_pinholes P w h img d pys).1 := by
  unfold apply_pitting_pinholes
  exact foldl_preserve (fun ac => bufLE ac.1) _
    (fun s i hs => pitting_draw_bufLE P w h hi hs) _ (img, pys) hi

theorem pores_draw_bufLE (P : Prims) (w h : ℕ) {entry : Buf} (he : bufLE entry)
    (szr : ℤ × ℤ) {acc : Buf × PyState} (ha : bufLE acc.1) :
    bufLE (pores_draw P w h entry szr acc).1 := by
  intro x y
  unfold pores_draw
  dsimp only
  split
  · exact mapRGB_chansLE (he _ _) fun n hn => darken_channel_le hn (by norm_num) (by norm_num)
  · exact ha x y

theorem apply_pores_bufLE (P : Prims) (w h : ℕ) {img : Buf} (hi : bufLE img)
    (cnt : ℤ) (szr : ℤ × ℤ) (pys : PyState) :
    bufLE (apply_pores P w h img cnt szr pys).1 := by
  unfold apply_pores
  exact foldl_preserve (fun ac => bufLE ac.1) _
    (fun s i hs => pores_draw_bufLE P w h hi szr hs) _ (img, pys) hi

theorem aggregate_draw_bufLE (P : Prims) (w h : ℕ) (entry : Buf)
    {acc : Buf × PyState} (ha : bufLE acc.1) : bufLE (aggregate_draw P w h entry acc).1 := by
  intro x y
  unfold aggregate_draw
  dsimp only
  split
  · refine mapRGB_chansLE_of (fun n => ?_) _
    exact intTrunc_toNat_le (clamp_le _)
  · exact ha x y

theorem apply_rough_aggregate_bufLE (P : Prims) (w h : ℕ) {img : Buf}
    (hi : bufLE img) (d : ℚ) (pys : PyState) :
    bufLE (apply_rough_aggregate P w h img d pys).1 := by
  unfold apply_rough_aggregate
  exact foldl_preserve (fun ac => bufLE ac.1) _
    (fun s i hs => aggregate_draw_bufLE P w h img hs) _ (img, pys) hi

theorem crack_color_of_chansLE {entry : Buf} (he : bufLE entry) (pt : ℤ × ℤ) :
    chansLE (crack_color_of entry pt) :=
  mapRGB_chansLE (he _ _) fun n hn => darken_channel_le hn (by norm_num) (by norm_num)

theorem draw_polyline_bufLE (P : Prims) (pts : List (ℤ × ℤ)) {color : RGB}
    (hc : chansLE color) {buf : Buf} (hb : bufLE buf) :
    bufLE (draw_polyline P pts color buf) := by
  intro x y
  unfold draw_polyline
  split
  · exact hc
  · exact hb x y

theorem crack_walk_step_bufLE (P : Prims) (w h : ℕ) {entry : Buf} (he : bufLE entry)
    {st : ℚ × ℚ × ℚ × List (ℤ × ℤ) × Buf × PyState} (hb : bufLE st.2.2.2.2.1) (i : ℕ) :
    bufLE (crack_walk_step P w h entry st i).2.2.2.2.1 := by
  unfold crack_walk_step
  dsimp only
  split
  · split
    · dsimp only
      split
      · exact draw_polyline_bufLE P _ (crack_color_of_chansLE he _) hb
      · exact hb
    · exact hb
  · exact hb

theorem crack_walk_bufLE (P : Prims) (w h : ℕ) {entry : Buf} (he : bufLE entry)
    {acc : Buf × PyState} (ha : bufLE acc.1) : bufLE (crack_walk P w h entry acc).1 := by
  unfold crack_walk
  dsimp only
  have hfold := foldl_preserve
    (fun st : ℚ × ℚ × ℚ × List (ℤ × ℤ) × Buf × PyState => bufLE st.2.2.2.2.1)
    (crack_walk_step P w h entry)
    (fun s i hs => crack_walk_step_bufLE P w h he hs i)
    (List.range (P.pyRandint (P.pyRandint (P.pyRandint acc.2 0 ((w : ℤ) - 1)).2 0
      ((h : ℤ) - 1)).2 15 60).1.toNat)
  split
  · exact draw_polyline_bufLE P _ (crack_color_of_chansLE he _) (hfold _ ha)
  · exact hfold _ ha

theorem apply_cracks_bufLE (P : Prims) (w h : ℕ) {img : Buf} (hi : bufLE img)
    (d : ℚ) (pys : PyState) : bufLE (apply_cracks P w h img d pys).1 := by
  unfold apply_cracks
  exact foldl_preserve (fun ac => bufLE ac.1) _
    (fun s i hs => crack_walk_bufLE P w h hi hs) _ (img, pys) hi

theorem generate_optBufLE (P : Prims) (bc : BaseColor) (w h : ℕ)
    (r p cr : ℚ) (sd : Option ℤ) (ki ks ps ad si ns : ℚ) (pys : PyState) (nps : NpState) :
    optBufLE (generate_concrete_texture P bc w h r p cr sd ki ks ps ad si ns pys nps) := by
  intro b hb
  unfold generate_concrete_texture at hb
  rcases bc with s | c
  · rcases hh : hex_to_rgb s with _ | rgbv
    · simp [hh] at hb
    · simp only [hh] at hb
      rw [Option.some.injEq] at hb
      subst hb
      exact apply_dust_haze_bufLE P w h _ 12 15 _
  · simp only [] at hb
    rw [Option.some.injEq] at hb
    subst hb
    exact apply_dust_haze_bufLE P w h _ 12 15 _

/-- Claim C1: for every base color, dimensions, style parameters and fixed
seed `S`, two calls of `generate_concrete_texture` with identical arguments
(including `seed = S`) yield identical output buffers, whatever the states
of the two module-level random streams were beforehand: the entry point
reseeds both streams from `S` before any layer runs, so no other source of
randomness reaches the pipeline. -/
theorem generate_deterministic_for_fixed_seed (P : Prims) (bc : BaseColor)
    (w h : ℕ) (r p cr ki ks ps ad si ns : ℚ) (s : ℤ)
    (py1 py2 : PyState) (np1 np2 : NpState) :
    generate_concrete_texture P bc w h r p cr (some s) ki ks ps ad si ns py1 np1 =
    generate_concrete_texture P bc w h r p cr (some s) ki ks ps ad si ns py2 np2 := rfl

/-- Claim C2: every channel of every pixel of a generated buffer lies in
[0, 255] (the lower bound holds by the `ℕ` channel type, matching the
`uint8` cells), and the same bound holds for the buffer each individual
pipeline layer returns — every write path clamps before the value leaves a
layer. -/
theorem channel_bounds_all_layers :
    (∀ (P : Prims) (bc : BaseColor) (w h : ℕ) (r p cr : ℚ) (sd : Option ℤ)
      (ki ks ps ad si ns : ℚ) (pys : PyState) (nps : NpState),
      optBufLE (generate_concrete_texture P bc w h r p cr sd ki ks ps ad si ns pys nps))
    ∧ (∀ (w h : ℕ) (c : RGB), chansLE c → bufLE (apply_base_color w h c))
    ∧ (∀ (P : Prims) (w h : ℕ) (img : Buf) (sc i : ℚ) (sd : Option ℤ) (pys : PyState),
      bufLE (apply_simplex_noise P w h img sc i sd pys).1)
    ∧ (∀ (P : Prims) (w h : ℕ) (img : Buf) (i b : ℚ) (sd : Option ℤ) (nps : NpState),
      bufLE (apply_knockdown_splatter P w h img i b sd nps).1)
    ∧ (∀ (P : Prims) (w h : ℕ) (img : Buf) (i : ℤ) (sd : Option ℤ) (nps : NpState),
      bufLE (apply_heavy_stipple P w h img i sd nps).1)
    ∧ (∀ (P : Prims) (w h : ℕ) (img : Buf) (i : ℤ) (sd : Option ℤ) (nps : NpState),
      bufLE (apply_fine_grain P w h img i sd nps).1)
    ∧ (∀ (P : Prims) (w h : ℕ) (img : Buf) (d : ℚ) (pys : PyState),
      bufLE img → bufLE (apply_pitting_pinholes P w h img d pys).1)
    ∧ (∀ (P : Prims) (w h : ℕ) (img : Buf) (d : ℚ) (pys : PyState),
      bufLE img → bufLE (apply_rough_aggregate P w h img d pys).1)
    ∧ (∀ (P : Prims) (w h : ℕ) (img : Buf) (pc : ℕ) (sc i : ℚ) (sd : Option ℤ)
      (pys : PyState) (nps : NpState),
      bufLE (apply_color_variation P w h img pc sc i sd pys nps).1)
    ∧ (∀ (P : Prims) (w h : ℕ) (img : Buf) (d : ℚ) (pys : PyState),
      bufLE img → bufLE (apply_cracks P w h img d pys).1)
    ∧ (∀ (P : Prims) (w h : ℕ) (img : Buf) (cnt : ℤ) (szr : ℤ × ℤ) (pys : PyState),
      bufLE img → bufLE (apply_pores P w h img cnt szr pys).1)
    ∧ (∀ (P : Prims) (w h : ℕ) (img : Buf) (pc : ℕ) (i : ℚ) (pys : PyState),
      bufLE (apply_dust_haze P w h img pc i pys).1) :=
  ⟨generate_optBufLE,
   fun w h c hc => apply_base_color_bufLE hc w h,
   apply_simplex_noise_bufLE,
   apply_knockdown_splatter_bufLE,
   apply_heavy_stipple_bufLE,
   apply_fine_grain_bufLE,
   fun P w h img d pys hi => apply_pitting_pinholes_bufLE P w h hi d pys,
   fun P w h img d pys hi => apply_rough_aggregate_bufLE P w h hi d pys,
   apply_color_variation_bufLE,
   fun P w h img d pys hi => apply_cracks_bufLE P w h hi d pys,
   fun P w h img cnt szr pys hi => apply_pores_bufLE P w h hi cnt szr pys,
   apply_dust_haze_bufLE⟩

/-- Witness for C2 at concrete inputs: the generated buffer for the
Medium Grey preset at 2×2 and the pitting layer applied to a base fill
satisfy the bounds, with the hypotheses discharged by computation. -/
theorem channel_bounds_all_layers_witness :
    optBufLE (generate_concrete_texture triv
      (.rgb (140, 134, 128)) 2 2 1 1 1 (some 7) (9/10) 3 1 1 1 1 0 0)
    ∧ bufLE (apply_pitting_pinholes triv 2 2 (apply_base_color 2 2 (140, 134, 128)) 1 0).1 := by
  obtain ⟨hgen, hbase, _, _, _, _, hpit, _⟩ := channel_bounds_all_layers
  exact ⟨hgen triv (.rgb (140, 134, 128)) 2 2 1 1 1 (some 7) (9/10) 3 1 1 1 1 0 0,
    hpit triv 2 2 _ 1 0 (hbase 2 2 (140, 134, 128) ⟨by norm_num, by norm_num, by norm_num⟩)⟩

/-- Claim C6: with a nondegenerate mask (positive maximum, cf. C10 for the
guarded case), the knockdown splatter layer as the pipeline invokes it is
exactly the claimed five steps — one uniform scalar per pixel, binarisation
at a threshold within [0.60, 0.65] (here 0.60), Gaussian blur with radius
`knockdown_scale`, normalisation by the mask maximum, then per channel
adding `(mask − 0.5) × intensity × K` with `K = 50 ∈ [40, 50]`, clamped to
[0, 255]. -/
theorem knockdown_performs_exact_steps (P : Prims) (w h : ℕ) (img : Buf)
    (intensity blur : ℚ) (nps : NpState)
    (hm : 0 < knockdown_mask_max P w h blur nps) :
    apply_knockdown_splatter P w h img intensity blur none nps
      = knockdown_steps P w h img intensity blur (6/10) 50 nps
    ∧ ((6/10 : ℚ) ≤ 6/10 ∧ (6/10 : ℚ) ≤ 13/20 ∧ (40 : ℚ) ≤ 50 ∧ (50 : ℚ) ≤ 50) := by
  constructor
  · unfold apply_knockdown_splatter knockdown_steps
    rw [knockdown_mask_max] at hm
    simp only [hm, if_true]
  · norm_num

/-- Witness for C6: with the all-ones uniform matrix the mask maximum is 1,
and the layer coincides with the five claimed steps. -/
theorem knockdown_performs_exact_steps_witness :
    0 < knockdown_mask_max trivKD 2 2 3 0
    ∧ apply_knockdown_splatter trivKD 2 2 cbuf100 (9/10) 3 none 0
      = knockdown_steps trivKD 2 2 cbuf100 (9/10) 3 (6/10) 50 0 :=
  ⟨by with_unfolding_all decide,
   (knockdown_performs_exact_steps trivKD 2 2 cbuf100 (9/10) 3 0
     (by with_unfolding_all decide)).1⟩

/-- Claim C10: when the blurred, thresholded splatter mask has maximum 0
(e.g. no noise value exceeded the threshold), the knockdown layer skips the
division-by-maximum normalisation and still returns a well-defined buffer
built from the unnormalised mask: no division by zero occurs. -/
theorem knockdown_zero_mask_skips_normalization (P : Prims) (w h : ℕ)
    (img : Buf) (intensity blur : ℚ) (nps : NpState)
    (hm : knockdown_mask_max P w h blur nps = 0) :
    apply_knockdown_splatter P w h img intensity blur none nps =
      ((fun x y => mapRGB (fun c => clampU8 ((c : ℚ) +
          (P.gaussianFilter blur w h (threshold_mask (P.npRand nps w h).1 (6/10)) x y - 1/2)
            * intensity * 50)) (img x y)),
       (P.npRand nps w h).2) := by
  unfold apply_knockdown_splatter
  rw [knockdown_mask_max] at hm
  simp only [hm, lt_self_iff_false, if_false]

/-- Witness for C10: with the all-zero uniform matrix nothing survives the
threshold, the mask maximum is 0, and the layer returns the unnormalised
formula. -/
theorem knockdown_zero_mask_skips_normalization_witness :
    knockdown_mask_max triv 2 2 3 0 = 0
    ∧ apply_knockdown_splatter triv 2 2 cbuf100 (9/10) 3 none 0 =
      ((fun x y => mapRGB (fun c => clampU8 ((c : ℚ) +
          (triv.gaussianFilter 3 2 2 (threshold_mask (triv.npRand 0 2 2).1 (6/10)) x y - 1/2)
            * (9/10) * 50)) (cbuf100 x y)),
       (triv.npRand 0 2 2).2) :=
  ⟨by with_unfolding_all decide,
   knockdown_zero_mask_skips_normalization triv 2 2 cbuf100 (9/10) 3 0
     (by with_unfolding_all decide)⟩

/-- Counterexample to claim C3: generation does **not** fail on the 8-hex-
digit base color "AABBCCDD" — the call goes through and produces a buffer,
silently using only the first 6 digits. -/
theorem hex_eight_digits_accepted :
    (generate_concrete_texture triv (.hexStr ['A','A','B','B','C','C','D','D'])
      64 64 1 1 1 (some 0) (9/10) 3 1 1 1 1 0 0).isSome = true := by decide

/-- Amended claim C3: `hex_to_rgb` performs no length check.  Any string
whose first six characters (after stripping leading '#') are hex digits is
accepted using only those six characters, extra characters ignored; a
string is rejected only when one of the three 2-character slices fails to
parse — in particular when the stripped string is shorter than 5, so the
third slice is empty.  The failure arises inside the conversion, not from a
prior validity check. -/
theorem hex_to_rgb_amended :
    (∀ (c1 c2 c3 c4 c5 c6 : Char) (rest : List Char),
      isHexDig c1 = true → isHexDig c2 = true → isHexDig c3 = true →
      isHexDig c4 = true → isHexDig c5 = true → isHexDig c6 = true →
      hex_to_rgb (c1 :: c2 :: c3 :: c4 :: c5 :: c6 :: rest)
        = some (16 * hexVal c1 + hexVal c2, 16 * hexVal c3 + hexVal c4,
                16 * hexVal c5 + hexVal c6))
    ∧ (∀ s : List Char, (s.dropWhile fun c => c = '#').length ≤ 4 →
        hex_to_rgb s = none) := by
  constructor
  · intro c1 c2 c3 c4 c5 c6 rest h1 h2 h3 h4 h5 h6
    have hne : ¬(c1 = '#') := by
      intro e
      rw [e] at h1
      exact absurd h1 (by decide)
    unfold hex_to_rgb
    rw [List.dropWhile_cons_of_neg (by simpa using hne)]
    simp [pySlice, pyIntHex, h1, h2, h3, h4, h5, h6, List.take_succ_cons, List.drop_succ_cons]
  · intro s hlen
    have h3 : pySlice (s.dropWhile fun c => c = '#') 4 6 = [] := by
      unfold pySlice
      rw [List.drop_eq_nil_of_le hlen, List.take_nil]
    simp only [hex_to_rgb, h3]
    rcases pyIntHex (pySlice (s.dropWhile fun c => c = '#') 0 2) with _ | r <;>
      rcases pyIntHex (pySlice (s.dropWhile fun c => c = '#') 2 4) with _ | g <;>
      simp [pyIntHex]

/-- Witness for the amended C3: "AABBCCDD" parses to (170, 187, 204) from
its first six digits, and the two-character string "AB" is rejected. -/
theorem hex_to_rgb_amended_witness :
    hex_to_rgb ['A','A','B','B','C','C','D','D']
      = some (16 * hexVal 'A' + hexVal 'A', 16 * hexVal 'B' + hexVal 'B',
              16 * hexVal 'C' + hexVal 'C')
    ∧ hex_to_rgb ['A','B'] = none :=
  ⟨hex_to_rgb_amended.1 'A' 'A' 'B' 'B' 'C' 'C' ['D','D']
    (by decide) (by decide) (by decide) (by decide) (by decide) (by decide),
   hex_to_rgb_amended.2 ['A','B'] (by decide)⟩

/-- Counterexample to claim C4: the generation entry point does **not**
reject out-of-range dimensions — at 32×32 (below the documented minimum
of 64) it produces a buffer. -/
theorem generate_accepts_small_dimensions :
    (generate_concrete_texture triv (.rgb (140, 134, 128))
      32 32 1 1 1 (some 0) (9/10) 3 1 1 1 1 0 0).isSome = true := by decide

/-- Amended claim C4: the [64, 8192] dimension check lives in the GUI export
dialog (`ConcreteTextureApp.export_texture.do_export`), which rejects
out-of-range dimensions before generation starts; `generate_concrete_texture`
itself performs no dimension validation — at the documented default style
parameters it produces a buffer for any **positive** dimensions, however far
outside [64, 8192] — and the CLI performs no check either.  (Width or
height 0 is not validated either: it crashes inside numpy's zero-size
`.max()` at line 135 rather than being rejected, an error path outside this
model, hence the positivity hypotheses.) -/
theorem dimension_check_located_in_app :
    (∀ w h : ℤ, (w < 64 ∨ h < 64 ∨ 8192 < w ∨ 8192 < h) → do_export w h = none)
    ∧ (∀ (P : Prims) (c : RGB) (w h : ℕ), 1 ≤ w → 1 ≤ h →
        ∀ (sd : Option ℤ) (pys : PyState) (nps : NpState),
        (generate_concrete_texture P (.rgb c) w h 1 1 1 sd (9/10) 3 1 1 1 1
          pys nps).isSome = true) := by
  constructor
  · intro w h hwh
    unfold do_export export_dims_ok
    rcases hwh with hc | hc | hc | hc <;> simp [hc]
  · intro P c w h hw hh sd pys nps
    rfl

/-- Witness for the amended C4: the export dialog rejects a width of 32,
while the generator itself accepts 32×32. -/
theorem dimension_check_located_in_app_witness :
    do_export 32 1024 = none
    ∧ (generate_concrete_texture triv (.rgb (1, 2, 3))
        32 32 1 1 1 (some 0) (9/10) 3 1 1 1 1 0 0).isSome = true :=
  ⟨dimension_check_located_in_app.1 32 1024 (Or.inl (by norm_num)),
   dimension_check_located_in_app.2 triv (1, 2, 3) 32 32 (by norm_num) (by norm_num)
     (some 0) 0 0⟩

set_option maxRecDepth 400000 in
/-- Counterexample to claim C5: `generate_concrete_texture` does **not**
silently clamp out-of-range style parameters to their declared bounds.
With `roughness = 5.0` (declared range [0.0, 2.0]) the output differs from
the output at the clamped value 2.0 under the same seed and primitives, so
the raw out-of-range value is used unclamped. -/
theorem style_params_used_unclamped :
    (generate_concrete_texture triv (.rgb (140, 134, 128))
      4 4 5 0 0 (some 1) (9/10) 3 1 0 0 1 0 0).map (fun b => b 0 0)
    ≠ (generate_concrete_texture triv (.rgb (140, 134, 128))
      4 4 2 0 0 (some 1) (9/10) 3 1 0 0 1 0 0).map (fun b => b 0 0) := by
  with_unfolding_all decide

set_option maxRecDepth 400000 in
/-- Amended claim C5: `generate_concrete_texture` neither validates nor
clamps style parameters.  An out-of-range value is never rejected by a
check and never clamped: the raw value is used, so generation proceeds
with it (here, roughness 5.0 — outside the declared [0.0, 2.0] — yields a
buffer that differs from the clamped value's buffer), while values that
violate a library precondition (roughness ≤ -1/35 makes
`np.random.randint` at line 158 raise with low ≥ high; a negative
`pitting_size` with a positive pore count makes `random.randint` raise in
the pores layer) crash inside the library call rather than being clamped —
an error path outside this model, hence the concrete instance.  Only the
CLI `main` clamps its four parameters (roughness, splatter, pitting,
cracks) to their declared ranges, after a printed warning, before calling
the generator. -/
theorem style_params_amended :
    ((generate_concrete_texture triv (.rgb (140, 134, 128))
        4 4 5 0 0 (some 1) (9/10) 3 1 0 0 1 0 0).isSome = true)
    ∧ ((generate_concrete_texture triv (.rgb (140, 134, 128))
        4 4 5 0 0 (some 1) (9/10) 3 1 0 0 1 0 0).map (fun b => b 0 0)
      ≠ (generate_concrete_texture triv (.rgb (140, 134, 128))
        4 4 2 0 0 (some 1) (9/10) 3 1 0 0 1 0 0).map (fun b => b 0 0))
    ∧ (∀ v : ℚ, 0 ≤ main_clamp 0 2 v ∧ main_clamp 0 2 v ≤ 2) := by
  refine ⟨rfl, by with_unfolding_all decide, fun v => ?_⟩
  unfold main_clamp
  split
  · exact ⟨le_max_left _ _, max_le (by norm_num) (min_le_left _ _)⟩
  · next hv =>
    rw [not_not] at hv
    exact hv

/-- Counterexample to claim C7: the tonal-noise layer does **not** sum the
two weighted octaves and clamp once.  With noise 1 (octave 1) and -1/2
(octave 2) on a uniform 250-buffer at intensity 12, the code clamps after
each octave and yields 252, while the single-clamp reading of the claim
yields 255. -/
theorem tonal_noise_not_single_clamp :
    (apply_simplex_noise trivC7 2 2 cbuf250 (1/100) 12 none 0).1 0 0
    ≠ (simplex_noise_single_clamp trivC7 2 2 cbuf250 (1/100) 12 none 0).1 0 0 := by
  with_unfolding_all decide

/-- Amended claim C7: each pixel's new channel value is
`clamp(clamp(old + n1 × 12) + n2 × 6)` — the octave-1 adjustment is clamped
(and truncated into the `uint8` cell) **before** the octave-2 adjustment is
added and clamped again, rather than both octaves being summed and clamped
once.  Here `n1` is coherent noise at scale `s = 0.01 × noise_scale` for
the drawn seed and `n2` is coherent noise at scale `3s` for seed + 1, and
within each octave the same adjustment is added to all three channels. -/
theorem tonal_noise_clamped_per_octave (P : Prims) (w h : ℕ) (img : Buf)
    (noise_scale : ℚ) (sd : ℤ) (pys : PyState) (x y : ℕ) :
    (apply_simplex_noise P w h img ((1/100) * noise_scale) 12 (some sd) pys).1 x y
      = mapRGB (fun c => clampU8
          (((clampU8 ((c : ℚ) + P.noise2 sd ((x : ℚ) * ((1/100) * noise_scale))
              ((y : ℚ) * ((1/100) * noise_scale)) * 12) : ℕ) : ℚ)
            + P.noise2 (sd + 1) ((x : ℚ) * ((1/100) * noise_scale) * 3)
              ((y : ℚ) * ((1/100) * noise_scale) * 3) * (12 * (1/2))))
          (img x y) := rfl

/-- Counterexample to claim C8: a pitting draw does **not** darken each disk
pixel to 0.4 × that pixel's own pre-layer color; it fills the whole disk
with 0.4 × the **center** pixel's color.  With the center at (0,0) (color
100) and its neighbour (0,1) at color 200, the code paints (0,1) with 40
while the claim's reading paints it with 80. -/
theorem pitting_fills_disk_with_center_color :
    (apply_pitting_pinholes triv 30 20 cbufC8 1 0).1 0 1
    ≠ (pitting_claim_steps triv 30 20 cbufC8 1 1 0).1 0 1 := by
  with_unfolding_all decide

/-- Amended claim C8: the pitting layer performs
`int((W*H)/600 × pitting_density)` draws (equal to the floor for the
declared nonnegative density range); each draw picks a uniform pixel
location, a radius uniformly in [1, 4] — `pitting_size` is **not** applied
in this layer (it only feeds the legacy pores layer) — and fills the whole
disk with the single color `int(0.4 × c)` per channel of the **center**
pixel as read from the buffer at layer entry, later draws overwriting
earlier ones. -/
theorem pitting_amended_steps :
    (∀ (P : Prims) (w h : ℕ) (img : Buf) (d : ℚ) (pys : PyState),
      apply_pitting_pinholes P w h img d pys
        = (List.range (intTrunc ((w : ℚ) * (h : ℚ) / 600 * d)).toNat).foldl
            (fun acc _ => pitting_draw P w h img acc) (img, pys))
    ∧ (∀ (P : Prims) (w h : ℕ) (entry buf : Buf) (pys : PyState),
      pitting_draw P w h entry (buf, pys)
        = ((fun px py =>
            if inDisk (P.pyRandint pys 0 ((w : ℤ) - 1)).1
                (P.pyRandint (P.pyRandint pys 0 ((w : ℤ) - 1)).2 0 ((h : ℤ) - 1)).1
                (P.pyRandint (P.pyRandint (P.pyRandint pys 0 ((w : ℤ) - 1)).2 0
                  ((h : ℤ) - 1)).2 1 4).1 px py
            then mapRGB (fun c => (intTrunc ((c : ℚ) * (4/10))).toNat)
                (entry (P.pyRandint pys 0 ((w : ℤ) - 1)).1.toNat
                  (P.pyRandint (P.pyRandint pys 0 ((w : ℤ) - 1)).2 0 ((h : ℤ) - 1)).1.toNat)
            else buf px py),
          (P.pyRandint (P.pyRandint (P.pyRandint pys 0 ((w : ℤ) - 1)).2 0
            ((h : ℤ) - 1)).2 1 4).2))
    ∧ (∀ (w h : ℕ) (d : ℚ), 0 ≤ d →
      intTrunc ((w : ℚ) * (h : ℚ) / 600 * d) = ⌊(w : ℚ) * (h : ℚ) / 600 * d⌋) := by
  refine ⟨fun P w h img d pys => rfl, fun P w h entry buf pys => rfl, fun w h d hd => ?_⟩
  unfold intTrunc
  rw [if_pos (by positivity)]

/-- Witness for the amended C8: the draw count at 30×20 with density 1 is
the floor value 1. -/
theorem pitting_amended_steps_witness :
    intTrunc ((30 : ℚ) * (20 : ℚ) / 600 * 1) = ⌊(30 : ℚ) * (20 : ℚ) / 600 * (1 : ℚ)⌋ :=
  pitting_amended_steps.2.2 30 20 1 (by norm_num)

/-- Counterexample to claim C9: a legacy pore darkens by a factor of
**0.4**, not 0.5.  On a uniform 100-buffer the code paints the pore pixel
with `int(100 * 0.4) = 40`, while the claim's 0.5 reading gives 50. -/
theorem pores_darken_factor_is_two_fifths :
    (apply_pores triv 30 20 cbuf100 1 (1, 3) 0).1 0 0
    ≠ (pores_claim_steps triv 30 20 cbuf100 1 (1, 3) 0).1 0 0 := by
  with_unfolding_all decide

/-- Amended claim C9: the legacy-pores layer performs `int(600 ×
pitting_density)` draws (the floor for nonnegative density) — the count is
computed at the pipeline call site; each draw picks a uniform location and
a size from `size_range = (int(1 × pitting_size), int(3 × pitting_size))`,
and fills the disk of radius `size // 2` with the single color
`int(0.4 × c)` per channel of the **center** pixel as of layer entry — a
0.4 darkening factor, not 0.5. -/
theorem pores_amended_steps :
    (∀ (P : Prims) (w h : ℕ) (img : Buf) (cnt : ℤ) (szr : ℤ × ℤ) (pys : PyState),
      apply_pores P w h img cnt szr pys
        = (List.range cnt.toNat).foldl
            (fun acc _ => pores_draw P w h img szr acc) (img, pys))
    ∧ (∀ (P : Prims) (w h : ℕ) (entry buf : Buf) (szr : ℤ × ℤ) (pys : PyState),
      pores_draw P w h entry szr (buf, pys)
        = ((fun px py =>
            if inDisk (P.pyRandint pys 0 ((w : ℤ) - 1)).1
                (P.pyRandint (P.pyRandint pys 0 ((w : ℤ) - 1)).2 0 ((h : ℤ) - 1)).1
                ((P.pyRandint (P.pyRandint (P.pyRandint pys 0 ((w : ℤ) - 1)).2 0
                  ((h : ℤ) - 1)).2 szr.1 szr.2).1.fdiv 2) px py
            then mapRGB (fun c => (intTrunc ((c : ℚ) * (4/10))).toNat)
                (entry (P.pyRandint pys 0 ((w : ℤ) - 1)).1.toNat
                  (P.pyRandint (P.pyRandint pys 0 ((w : ℤ) - 1)).2 0 ((h : ℤ) - 1)).1.toNat)
            else buf px py),
          (P.pyRandint (P.pyRandint (P.pyRandint pys 0 ((w : ℤ) - 1)).2 0
            ((h : ℤ) - 1)).2 szr.1 szr.2).2))
    ∧ (∀ p : ℚ, 0 ≤ p → intTrunc (600 * p) = ⌊600 * p⌋) := by
  refine ⟨fun P w h img cnt szr pys => rfl, fun P w h entry buf szr pys => rfl,
    fun p hp => ?_⟩
  unfold intTrunc
  rw [if_pos (by positivity)]

/-- Witness for the amended C9: the pipeline's pore count at density 1 is
the floor value 600. -/
theorem pores_amended_steps_witness :
    intTrunc (600 * (1 : ℚ)) = ⌊600 * (1 : ℚ)⌋ :=
  pores_amended_steps.2.2 1 (by norm_num)
